import Mathlib

/-!
Verification of the preload pass of `simulation/config_loader.py`.

The preload pass (`ConfigLoader.preload_config`) makes a single streaming,
line-oriented scan over a scene-description file: it reads the six simulation
box bounds, counts particles (by type) and membranes, and collects physical
constants, without retaining row contents.

Shallow embedding conventions:
* A file is a `List Line` of its lines (`Line := List Char`); `readline`
  returning `""` at end of file corresponds to the empty list.  Lines carry no
  embedded newline characters.
* Python `float`/`int` values are modelled exactly as rationals `ℚ` / integers
  `ℤ`; the model covers plain ASCII numeric literals (optional sign, digits,
  optional fraction and exponent).  IEEE rounding, `inf`/`nan` spellings,
  underscore digit separators and non-ASCII digits are outside the model.
* `f.tell()` (a byte offset in the source) is modelled as the number of lines
  consumed so far; it is an opaque resume marker either way.
* Fatal outcomes (the `IOError` raised on a malformed simulation-box block)
  are `Except.error ()`; warnings printed for recoverable rows are side-effect
  free and are not modelled.
* The `config_path` / `config_filename` strings and the file-system access of
  the source are not modelled: the loader is studied as a function from the
  file's lines to the produced record.
-/

abbrev Line := List Char

/-- Decidable equality for `Except`, needed to evaluate runs of the loader by
`decide`. -/
instance {ε α : Type} [DecidableEq ε] [DecidableEq α] : DecidableEq (Except ε α) := fun a b =>
  match a, b with
  | .ok x, .ok y => if h : x = y then .isTrue (by rw [h]) else .isFalse (by simp [h])
  | .error x, .error y => if h : x = y then .isTrue (by rw [h]) else .isFalse (by simp [h])
  | .ok _, .error _ => .isFalse (by simp)
  | .error _, .ok _ => .isFalse (by simp)

/-- Coercion from string literals used to write concrete input lines. -/
def chars (s : String) : Line := s.toList

/-- The ASCII whitespace characters stripped by Python's `str.strip()`. -/
def isPyWs (c : Char) : Bool :=
  c = ' ' ∨ c = '\t' ∨ c = '\n' ∨ c = '\r' ∨ c = '\x0b' ∨ c = '\x0c'

/-- `line.strip()`: remove leading and trailing whitespace. -/
def pyStrip (cs : Line) : Line :=
  ((cs.dropWhile isPyWs).reverse.dropWhile isPyWs).reverse

/-- The skip test of the main loop (config_loader.py line 85): the stripped
line is empty, or starts with `//`, or starts with `#`. -/
def isSkip (s : Line) : Bool :=
  match s with
  | [] => true
  | '/' :: '/' :: _ => true
  | '#' :: _ => true
  | _ => false

/-- Section-header test (config_loader.py line 89):
`line.startswith('[') and line.endswith(']')`. -/
def isHeader (s : Line) : Bool :=
  match s with
  | '[' :: rest => rest.getLast? = some ']'
  | _ => false

/-- `line.split('\t')` for a single-character separator: empty fields are
kept and the empty string yields `[""]`. -/
def splitTabAux : List Char → List Char → List Line
  | [], acc => [acc.reverse]
  | c :: rest, acc =>
    if c = '\t' then acc.reverse :: splitTabAux rest []
    else splitTabAux rest (c :: acc)

/-- `line.split('\t')`. -/
def splitTab (cs : Line) : List Line := splitTabAux cs []

/-- Numeric value of a digit string (most significant first). -/
def digitsToNat (ds : List Char) : ℕ :=
  ds.foldl (fun a c => 10 * a + (c.toNat - '0'.toNat)) 0

/-- Exact value of a decimal literal: sign `s`, mantissa digits worth `m`,
`k` fraction digits, decimal exponent `e`; i.e. `s * m / 10^k * 10^e`.
Built with `mkRat` so that runs of the loader evaluate inside the kernel. -/
def pyVal (s : ℤ) (m : ℕ) (k : ℕ) (e : ℤ) : ℚ :=
  if 0 ≤ e then mkRat (s * m * 10 ^ e.toNat) (10 ^ k)
  else mkRat (s * m) (10 ^ (k + (-e).toNat))

/-- Leading-sign split shared by the numeric parsers. -/
def parseSign : List Char → ℤ × List Char
  | '+' :: t => (1, t)
  | '-' :: t => (-1, t)
  | t => (1, t)

/-- Trailing-exponent parser for `float`: the remaining input must be empty,
or be `[eE][+-]?digits+` exactly. -/
def parseExpTail (cs : List Char) : Option ℤ :=
  match cs with
  | [] => some 0
  | c :: t =>
    if c = 'e' ∨ c = 'E' then
      let st := parseSign t
      let ds := st.2.takeWhile Char.isDigit
      if ds.isEmpty then none
      else if (st.2.drop ds.length).isEmpty then some (st.1 * digitsToNat ds)
      else none
    else none

/-- The literal grammar of Python's `float()` on an already-stripped string:
`[+-]? ( digits+ [. digits*]? | . digits+ ) ( [eE][+-]?digits+ )?`. -/
def parseFloatChars (cs : List Char) : Option ℚ :=
  let sc := parseSign cs
  let ip := sc.2.takeWhile Char.isDigit
  let cs1 := sc.2.drop ip.length
  let mant : Option (ℕ × ℕ × List Char) :=
    if ip.isEmpty then
      match cs1 with
      | '.' :: t =>
        let fp := t.takeWhile Char.isDigit
        if fp.isEmpty then none
        else some (digitsToNat fp, fp.length, t.drop fp.length)
      | _ => none
    else
      match cs1 with
      | '.' :: t =>
        let fp := t.takeWhile Char.isDigit
        some (digitsToNat (ip ++ fp), fp.length, t.drop fp.length)
      | _ => some (digitsToNat ip, 0, cs1)
  match mant with
  | none => none
  | some (m, k, rest) =>
    match parseExpTail rest with
    | none => none
    | some e => some (pyVal sc.1 m k e)

/-- Python `float(x)`: `float` itself tolerates surrounding whitespace, so the
argument is stripped before parsing the literal. -/
def pyFloat (cs : Line) : Option ℚ := parseFloatChars (pyStrip cs)

/-- Python `int(x)` on a string: surrounding whitespace, optional sign,
digits. -/
def pyInt (cs : Line) : Option ℤ :=
  let t := pyStrip cs
  let st := parseSign t
  let ds := st.2.takeWhile Char.isDigit
  if ds.isEmpty then none
  else if (st.2.drop ds.length).isEmpty then some (st.1 * digitsToNat ds)
  else none

/-- Python `int(q)` on a float value: truncation toward zero. -/
def ratTrunc (q : ℚ) : ℤ := q.num.tdiv q.den

/-- Word characters matched by the regex class `\w` (ASCII). -/
def isWordChar (c : Char) : Bool :=
  c.isAlpha ∨ c.isDigit ∨ c = '_'

/-- `read_phys_param` (config_loader.py lines 49–58): match the regex
`^\s*(\w+)\s*:\s*(\d+(?:\.\d*(?:[eE][+-]?\d+)?)?)\s*(?://.*)?$` against the
line and return the captured name and numeric value.  Note that in this
pattern the exponent group is nested inside the optional fraction group, so an
exponent can only follow a decimal point.  The greedy left-to-right reading
implemented here is equivalent to the backtracking regex because each
quantified class is disjoint from what may legally follow it. -/
def read_phys_param (cs : Line) : Option (Line × ℚ) :=
  let cs1 := cs.dropWhile isPyWs
  let name := cs1.takeWhile isWordChar
  if name.isEmpty then none else
  match (cs1.drop name.length).dropWhile isPyWs with
  | ':' :: cs3 =>
    let cs4 := cs3.dropWhile isPyWs
    let ip := cs4.takeWhile Char.isDigit
    if ip.isEmpty then none else
    let cs5 := cs4.drop ip.length
    let mke : ℕ × ℕ × ℤ × List Char :=
      match cs5 with
      | '.' :: t =>
        let fp := t.takeWhile Char.isDigit
        let t2 := t.drop fp.length
        let m := digitsToNat (ip ++ fp)
        match t2 with
        | e :: t3 =>
          if e = 'e' ∨ e = 'E' then
            let st := parseSign t3
            let ds := st.2.takeWhile Char.isDigit
            if ds.isEmpty then (m, fp.length, 0, t2)
            else (m, fp.length, st.1 * digitsToNat ds, st.2.drop ds.length)
          else (m, fp.length, 0, t2)
        | [] => (m, fp.length, 0, [])
      | t => (digitsToNat ip, 0, 0, t)
    match (mke.2.2.2).dropWhile isPyWs with
    | [] => some (name, pyVal 1 mke.1 mke.2.1 mke.2.2.1)
    | '/' :: '/' :: _ => some (name, pyVal 1 mke.1 mke.2.1 mke.2.2.1)
    | _ => none
  | _ => none

/-- Modelled from the spec: the physical-parameter line grammar as the claim
states it — identifier, colon with arbitrary surrounding whitespace, unsigned
decimal with optional fractional part and optional exponent, the exponent
allowed whether or not a fractional part is present, optionally followed by a
`//` comment. -/
def specPhysParamGrammar (cs : Line) : Bool :=
  let cs1 := cs.dropWhile isPyWs
  let name := cs1.takeWhile isWordChar
  if name.isEmpty then false else
  match (cs1.drop name.length).dropWhile isPyWs with
  | ':' :: cs3 =>
    let cs4 := cs3.dropWhile isPyWs
    let ip := cs4.takeWhile Char.isDigit
    if ip.isEmpty then false else
    let cs5 := cs4.drop ip.length
    let cs6 :=
      match cs5 with
      | '.' :: t => t.drop (t.takeWhile Char.isDigit).length
      | t => t
    let cs7 :=
      match cs6 with
      | e :: t3 =>
        if e = 'e' ∨ e = 'E' then
          let st := parseSign t3
          let ds := st.2.takeWhile Char.isDigit
          if ds.isEmpty then cs6 else st.2.drop ds.length
        else cs6
      | [] => ([] : List Char)
    match cs7.dropWhile isPyWs with
    | [] => true
    | '/' :: '/' :: _ => true
    | _ => false
  | _ => false

/-- `SimConfig` (config_loader.py lines 19–39).  Fields keep the source's
names (`_read_position_after_simbox` loses its leading underscore).
`boundsWrites` is ghost instrumentation, not present in the source: it is
incremented exactly when the six bounds fields are assigned, so that
write-once claims about the bounds can be stated. -/
structure SimConfig where
  xmin : ℚ := 0
  xmax : ℚ := 0
  ymin : ℚ := 0
  ymax : ℚ := 0
  zmin : ℚ := 0
  zmax : ℚ := 0
  num_liquid_p : ℕ := 0
  num_elastic_p : ℕ := 0
  num_boundary_p : ℕ := 0
  num_total_p : ℕ := 0
  num_membranes : ℕ := 0
  num_connections : ℕ := 0
  particle_mem_indices_count : ℕ := 0
  physical_constants : List (Line × ℚ) := []
  read_position_after_simbox : ℕ := 0
  boundsWrites : ℕ := 0
deriving DecidableEq

/-- Upsert into the `physical_constants` dict: replace the value of an
existing key in place, else append (Python dict assignment). -/
def dictInsert : List (Line × ℚ) → Line → ℚ → List (Line × ℚ)
  | [], k, v => [(k, v)]
  | (k', v') :: t, k, v =>
    if k' = k then (k, v) :: t else (k', v') :: dictInsert t k v

/-- Dict lookup (Python `d[k]` / `d.get(k)`). -/
def dictLookup : List (Line × ℚ) → Line → Option ℚ
  | [], _ => none
  | (k', v') :: t, k => if k' = k then some v' else dictLookup t k

/-- Handler for a data line in the `[physical parameters]` section
(config_loader.py lines 107–112). -/
def processPhys (s : Line) (cfg : SimConfig) : SimConfig :=
  match read_phys_param s with
  | some (n, v) => { cfg with physical_constants := dictInsert cfg.physical_constants n v }
  | none => cfg

/-- Handler for a data line in the `[position]` section (config_loader.py
lines 115–132): split on tabs; with at least 4 fields, parse field 3 as a
float and truncate to a type code; a successful parse increments the total
count unconditionally and then the matching per-type count (0 liquid,
1 elastic, 2 boundary); parse failures and short rows change nothing. -/
def processPosition (s : Line) (cfg : SimConfig) : SimConfig :=
  match splitTab s with
  | _ :: _ :: _ :: p3 :: _ =>
    match pyFloat p3 with
    | some q =>
      let t := ratTrunc q
      let cfg' := { cfg with num_total_p := cfg.num_total_p + 1 }
      if t = 0 then { cfg' with num_liquid_p := cfg'.num_liquid_p + 1 }
      else if t = 1 then { cfg' with num_elastic_p := cfg'.num_elastic_p + 1 }
      else if t = 2 then { cfg' with num_boundary_p := cfg'.num_boundary_p + 1 }
      else cfg'
    | none => cfg
  | _ => cfg

/-- A membrane row counted by the preload pass: at least 3 tab-separated
fields, the first three parseable as integers. -/
def validMembraneRow (s : Line) : Bool :=
  match splitTab s with
  | a :: b :: c :: _ => (pyInt a).isSome && (pyInt b).isSome && (pyInt c).isSome
  | _ => false

/-- Handler for a data line in the `[membranes]` section (config_loader.py
lines 134–147): count rows whose first three tab-separated fields are
integers; everything else is skipped. -/
def processMembrane (s : Line) (cfg : SimConfig) : SimConfig :=
  if validMembraneRow s then { cfg with num_membranes := cfg.num_membranes + 1 }
  else cfg

/-- The six consecutive raw `f.readline().strip()` / `float` reads of the
simulation-box sub-block (config_loader.py lines 93–98), sequenced as in the
source: the first failing parse aborts. -/
def readSimBox6 (b1 b2 b3 b4 b5 b6 : Line) : Option (ℚ × ℚ × ℚ × ℚ × ℚ × ℚ) := do
  let v1 ← pyFloat b1
  let v2 ← pyFloat b2
  let v3 ← pyFloat b3
  let v4 ← pyFloat b4
  let v5 ← pyFloat b5
  let v6 ← pyFloat b6
  pure (v1, v2, v3, v4, v5, v6)

/-- Section header lines recognized by the dispatch. -/
def simboxHdr : Line := chars "[simulation box]"

def physHdr : Line := chars "[physical parameters]"

def posHdr : Line := chars "[position]"

def memHdr : Line := chars "[membranes]"

def pmiHdr : Line := chars "[particleMemIndex]"

def velHdr : Line := chars "[velocity]"

def connHdr : Line := chars "[connection]"

def endHdr : Line := chars "[end]"

/-- The main loop of `preload_config` (config_loader.py lines 80–156) as a
function of the remaining lines, the current section (the stripped header
line, `none` initially and after a simulation-box block), the number of lines
consumed so far (standing in for the byte position `f.tell()`), and the
record built so far.

Branches, in source order: end of file stops with the record; blank/comment
lines are skipped; a bracketed line becomes the current section, and for
`[simulation box]` the next six raw lines are immediately consumed as bounds
(a parse failure or end of input is the fatal `IOError`), after which the
section resets to `none` and the resume position is captured; otherwise the
line is dispatched on the current section — `[physical parameters]`,
`[position]` and `[membranes]` update the record, a line seen inside
`[particleMemIndex]` or `[end]` stops the pass, and all other sections
(`[velocity]`, `[connection]`, unrecognized ones, or no section) ignore the
line. -/
def preloadLoop : List Line → Option Line → ℕ → SimConfig → Except Unit SimConfig
  | [], _, _, cfg => .ok cfg
  | ln :: rest, sec, pos, cfg =>
    if isSkip (pyStrip ln) then preloadLoop rest sec (pos + 1) cfg
    else if isHeader (pyStrip ln) then
      if pyStrip ln = simboxHdr then
        match rest with
        | b1 :: b2 :: b3 :: b4 :: b5 :: b6 :: rest' =>
          match readSimBox6 b1 b2 b3 b4 b5 b6 with
          | some (v1, v2, v3, v4, v5, v6) =>
            preloadLoop rest' none (pos + 7)
              { cfg with xmin := v1, xmax := v2, ymin := v3, ymax := v4, zmin := v5, zmax := v6,
                         read_position_after_simbox := pos + 7,
                         boundsWrites := cfg.boundsWrites + 1 }
          | none => .error ()
        | _ => .error ()
      else preloadLoop rest (some (pyStrip ln)) (pos + 1) cfg
    else if sec = some physHdr then preloadLoop rest sec (pos + 1) (processPhys (pyStrip ln) cfg)
    else if sec = some posHdr then preloadLoop rest sec (pos + 1) (processPosition (pyStrip ln) cfg)
    else if sec = some memHdr then preloadLoop rest sec (pos + 1) (processMembrane (pyStrip ln) cfg)
    else if sec = some pmiHdr then .ok cfg
    else if sec = some endHdr then .ok cfg
    else preloadLoop rest sec (pos + 1) cfg

/-- `ConfigLoader.preload_config` on a file given as its list of lines. -/
def preload (ls : List Line) : Except Unit SimConfig :=
  preloadLoop ls none 0 {}

/-- Per-component tallies of what a scan contributes to the counters of the
record: particle counts by recognized type, position rows with an
unrecognized type code (`unknown`), membrane rows, and assignments to the
bounds fields (`bwrites`). -/
structure Tally where
  liquid : ℕ := 0
  elastic : ℕ := 0
  boundary : ℕ := 0
  total : ℕ := 0
  unknown : ℕ := 0
  membranes : ℕ := 0
  bwrites : ℕ := 0
deriving DecidableEq

/-- Componentwise sum of tallies. -/
def Tally.add (a b : Tally) : Tally :=
  ⟨a.liquid + b.liquid, a.elastic + b.elastic, a.boundary + b.boundary,
   a.total + b.total, a.unknown + b.unknown, a.membranes + b.membranes,
   a.bwrites + b.bwrites⟩

/-- Contribution of one `[position]` data line to the particle counters. -/
def rowPosTally (s : Line) : Tally :=
  match splitTab s with
  | _ :: _ :: _ :: p3 :: _ =>
    match pyFloat p3 with
    | some q =>
      let t := ratTrunc q
      if t = 0 then { liquid := 1, total := 1 }
      else if t = 1 then { elastic := 1, total := 1 }
      else if t = 2 then { boundary := 1, total := 1 }
      else { unknown := 1, total := 1 }
    | none => {}
  | _ => {}

/-- Contribution of one `[membranes]` data line to the membrane counter. -/
def rowMemTally (s : Line) : Tally :=
  if validMembraneRow s then { membranes := 1 } else {}

/-- The counters contributed by scanning the given lines in the given
section, mirroring the traversal of `preloadLoop` (same skip, header,
simulation-box consumption, dispatch and early-exit structure), but recording
only what each visited data row adds to the counters. -/
def scanTally : List Line → Option Line → Tally
  | [], _ => {}
  | ln :: rest, sec =>
    if isSkip (pyStrip ln) then scanTally rest sec
    else if isHeader (pyStrip ln) then
      if pyStrip ln = simboxHdr then
        match rest with
        | b1 :: b2 :: b3 :: b4 :: b5 :: b6 :: rest' =>
          match readSimBox6 b1 b2 b3 b4 b5 b6 with
          | some _ => Tally.add { bwrites := 1 } (scanTally rest' none)
          | none => {}
        | _ => {}
      else scanTally rest (some (pyStrip ln))
    else if sec = some physHdr then scanTally rest sec
    else if sec = some posHdr then Tally.add (rowPosTally (pyStrip ln)) (scanTally rest sec)
    else if sec = some memHdr then Tally.add (rowMemTally (pyStrip ln)) (scanTally rest sec)
    else if sec = some pmiHdr then {}
    else if sec = some endHdr then {}
    else scanTally rest sec

/-- The six bounds, the resume position and the ghost write counter of a
record, as one tuple. -/
def boundsPart (cfg : SimConfig) : ℚ × ℚ × ℚ × ℚ × ℚ × ℚ × ℕ × ℕ :=
  (cfg.xmin, cfg.xmax, cfg.ymin, cfg.ymax, cfg.zmin, cfg.zmax,
   cfg.read_position_after_simbox, cfg.boundsWrites)

/-- Concrete input files used to evaluate the claims. -/
def fileC1 : List Line :=
  [chars "[simulation box]", chars "0", chars "10", chars "0", chars "10",
   chars "0", chars "10", chars "[position]", chars "0\t0\t0\t0",
   chars "0\t0\t0\t2", chars "[membranes]", chars "1\t2\t0", chars "[end]"]

/-- A `[position]` row with the unrecognized type code 5. -/
def fileC2 : List Line := [chars "[position]", chars "0\t0\t0\t5"]

/-- A `[position]` section header appearing after the `[end]` header. -/
def fileC4a : List Line := [chars "[end]", chars "[position]", chars "0\t0\t0\t0"]

def fileC4b : List Line := [chars "[end]"]

/-- A comment line amid the six simulation-box body lines. -/
def fileC6a : List Line :=
  [chars "[simulation box]", chars "// c", chars "0", chars "10", chars "0",
   chars "10", chars "0", chars "10"]

def fileC6b : List Line :=
  [chars "[simulation box]", chars "0", chars "10", chars "0", chars "10",
   chars "0", chars "10"]

/-- A physical-parameter line with an exponent but no decimal point. -/
def fileC7 : List Line := [chars "[physical parameters]", chars "mass : 1e5"]

/-- Two well-formed `[simulation box]` blocks in one file. -/
def fileC9 : List Line :=
  [chars "[simulation box]", chars "0", chars "10", chars "0", chars "10",
   chars "0", chars "10", chars "[simulation box]", chars "1", chars "2",
   chars "3", chars "4", chars "5", chars "6"]

/-- The recognized headers are pairwise distinct strings; recorded for `simp`
so that the dispatch chain reduces once the section is known. -/
@[simp] theorem pmi_ne_phys : (pmiHdr = physHdr) = False := by decide

@[simp] theorem pmi_ne_pos : (pmiHdr = posHdr) = False := by decide

@[simp] theorem pmi_ne_mem : (pmiHdr = memHdr) = False := by decide

@[simp] theorem end_ne_phys : (endHdr = physHdr) = False := by decide

@[simp] theorem end_ne_pos : (endHdr = posHdr) = False := by decide

@[simp] theorem end_ne_mem : (endHdr = memHdr) = False := by decide

@[simp] theorem end_ne_pmi : (endHdr = pmiHdr) = False := by decide

@[simp] theorem isSkip_simboxHdr : isSkip simboxHdr = false := by decide

@[simp] theorem isHeader_simboxHdr : isHeader simboxHdr = true := by decide

/-- A `[simulation box]` header with fewer than six following lines is the
fatal error (end of input reached while reading the six bounds). -/
theorem preloadLoop_simbox_short (ln : Line) (rest : List Line) (sec : Option Line)
    (pos : ℕ) (cfg : SimConfig) (hsk : ¬ isSkip (pyStrip ln) = true)
    (hsb : pyStrip ln = simboxHdr)
    (hshort : ∀ (b1 b2 b3 b4 b5 b6 : Line) (rest' : List Line),
      rest ≠ b1 :: b2 :: b3 :: b4 :: b5 :: b6 :: rest') :
    preloadLoop (ln :: rest) sec pos cfg = Except.error () := by
  have e1 : isSkip simboxHdr = false := by decide
  have e2 : isHeader simboxHdr = true := by decide
  rcases rest with _ | ⟨c1, _ | ⟨c2, _ | ⟨c3, _ | ⟨c4, _ | ⟨c5, _ | ⟨c6, r⟩⟩⟩⟩⟩⟩
  · simp [preloadLoop, hsb, e1, e2]
  · simp [preloadLoop, hsb, e1, e2]
  · simp [preloadLoop, hsb, e1, e2]
  · simp [preloadLoop, hsb, e1, e2]
  · simp [preloadLoop, hsb, e1, e2]
  · simp [preloadLoop, hsb, e1, e2]
  · exact absurd rfl (hshort c1 c2 c3 c4 c5 c6 r)

/-- Unfolding of one step of the loop for an arbitrary tail, usable where
the generated equations (which case on the tail's length) are not. -/
theorem preloadLoop_cons (ln : Line) (rest : List Line) (sec : Option Line) (pos : ℕ)
    (cfg : SimConfig) :
    preloadLoop (ln :: rest) sec pos cfg =
      (if isSkip (pyStrip ln) then preloadLoop rest sec (pos + 1) cfg
       else if isHeader (pyStrip ln) then
         if pyStrip ln = simboxHdr then
           match rest with
           | b1 :: b2 :: b3 :: b4 :: b5 :: b6 :: rest' =>
             match readSimBox6 b1 b2 b3 b4 b5 b6 with
             | some (v1, v2, v3, v4, v5, v6) =>
               preloadLoop rest' none (pos + 7)
                 { cfg with xmin := v1, xmax := v2, ymin := v3, ymax := v4, zmin := v5, zmax := v6,
                            read_position_after_simbox := pos + 7,
                            boundsWrites := cfg.boundsWrites + 1 }
             | none => .error ()
           | _ => .error ()
         else preloadLoop rest (some (pyStrip ln)) (pos + 1) cfg
       else if sec = some physHdr then preloadLoop rest sec (pos + 1) (processPhys (pyStrip ln) cfg)
       else if sec = some posHdr then preloadLoop rest sec (pos + 1) (processPosition (pyStrip ln) cfg)
       else if sec = some memHdr then preloadLoop rest sec (pos + 1) (processMembrane (pyStrip ln) cfg)
       else if sec = some pmiHdr then .ok cfg
       else if sec = some endHdr then .ok cfg
       else preloadLoop rest sec (pos + 1) cfg) := by
  rcases rest with _ | ⟨c1, _ | ⟨c2, _ | ⟨c3, _ | ⟨c4, _ | ⟨c5, _ | ⟨c6, r⟩⟩⟩⟩⟩⟩ <;> rfl

/-- Unfolding of one step of the tally scan for an arbitrary tail. -/
theorem scanTally_cons (ln : Line) (rest : List Line) (sec : Option Line) :
    scanTally (ln :: rest) sec =
      (if isSkip (pyStrip ln) then scanTally rest sec
       else if isHeader (pyStrip ln) then
         if pyStrip ln = simboxHdr then
           match rest with
           | b1 :: b2 :: b3 :: b4 :: b5 :: b6 :: rest' =>
             match readSimBox6 b1 b2 b3 b4 b5 b6 with
             | some _ => Tally.add { bwrites := 1 } (scanTally rest' none)
             | none => {}
           | _ => {}
         else scanTally rest (some (pyStrip ln))
       else if sec = some physHdr then scanTally rest sec
       else if sec = some posHdr then Tally.add (rowPosTally (pyStrip ln)) (scanTally rest sec)
       else if sec = some memHdr then Tally.add (rowMemTally (pyStrip ln)) (scanTally rest sec)
       else if sec = some pmiHdr then {}
       else if sec = some endHdr then {}
       else scanTally rest sec) := by
  rcases rest with _ | ⟨c1, _ | ⟨c2, _ | ⟨c3, _ | ⟨c4, _ | ⟨c5, _ | ⟨c6, r⟩⟩⟩⟩⟩⟩ <;> rfl

/-- When no remaining line is the `[simulation box]` header, the line
position threaded through the loop is never read, so the outcome does not
depend on it. -/
theorem preloadLoop_pos_irrel (ls : List Line) (sec : Option Line) (pos pos' : ℕ)
    (cfg : SimConfig) (h : ∀ x ∈ ls, pyStrip x ≠ simboxHdr) :
    preloadLoop ls sec pos cfg = preloadLoop ls sec pos' cfg := by
  induction ls generalizing sec pos pos' cfg with
  | nil => rfl
  | cons ln rest ih =>
    have hln : pyStrip ln ≠ simboxHdr := h ln (by simp)
    have hrest : ∀ x ∈ rest, pyStrip x ≠ simboxHdr := fun x hx => h x (by simp [hx])
    rw [preloadLoop_cons ln rest sec pos cfg, preloadLoop_cons ln rest sec pos' cfg]
    by_cases hsk : isSkip (pyStrip ln) = true
    · simpa [hsk] using ih sec (pos + 1) (pos' + 1) cfg hrest
    · by_cases hhd : isHeader (pyStrip ln) = true
      · simpa [hsk, hhd, hln] using ih (some (pyStrip ln)) (pos + 1) (pos' + 1) cfg hrest
      · by_cases h1 : sec = some physHdr
        · simpa [hsk, hhd, h1] using
            ih sec (pos + 1) (pos' + 1) (processPhys (pyStrip ln) cfg) hrest
        · by_cases h2 : sec = some posHdr
          · simpa [hsk, hhd, h1, h2] using
              ih sec (pos + 1) (pos' + 1) (processPosition (pyStrip ln) cfg) hrest
          · by_cases h3 : sec = some memHdr
            · simpa [hsk, hhd, h1, h2, h3] using
                ih sec (pos + 1) (pos' + 1) (processMembrane (pyStrip ln) cfg) hrest
            · by_cases h4 : sec = some pmiHdr
              · simp [hsk, hhd, h4]
              · by_cases h5 : sec = some endHdr
                · simp [hsk, hhd, h1, h2, h3, h4, h5]
                · simpa [hsk, hhd, h1, h2, h3, h4, h5] using
                    ih sec (pos + 1) (pos' + 1) cfg hrest

theorem processPhys_counters (s : Line) (cfg : SimConfig) :
    (processPhys s cfg).num_liquid_p = cfg.num_liquid_p ∧
    (processPhys s cfg).num_elastic_p = cfg.num_elastic_p ∧
    (processPhys s cfg).num_boundary_p = cfg.num_boundary_p ∧
    (processPhys s cfg).num_total_p = cfg.num_total_p ∧
    (processPhys s cfg).num_membranes = cfg.num_membranes ∧
    (processPhys s cfg).boundsWrites = cfg.boundsWrites := by
  unfold processPhys; split <;> simp

theorem processPhys_bounds (s : Line) (cfg : SimConfig) :
    boundsPart (processPhys s cfg) = boundsPart cfg := by
  unfold processPhys; split <;> rfl

theorem processPosition_bounds (s : Line) (cfg : SimConfig) :
    boundsPart (processPosition s cfg) = boundsPart cfg := by
  unfold processPosition
  split
  · split
    · dsimp only; split_ifs <;> rfl
    · rfl
  · rfl

theorem processPosition_constants (s : Line) (cfg : SimConfig) :
    (processPosition s cfg).physical_constants = cfg.physical_constants := by
  unfold processPosition
  split
  · split
    · dsimp only; split_ifs <;> rfl
    · rfl
  · rfl

theorem processMembrane_bounds (s : Line) (cfg : SimConfig) :
    boundsPart (processMembrane s cfg) = boundsPart cfg := by
  unfold processMembrane; split <;> rfl

theorem processMembrane_constants (s : Line) (cfg : SimConfig) :
    (processMembrane s cfg).physical_constants = cfg.physical_constants := by
  unfold processMembrane; split <;> rfl

theorem processPosition_counters (s : Line) (cfg : SimConfig) :
    (processPosition s cfg).num_liquid_p = cfg.num_liquid_p + (rowPosTally s).liquid ∧
    (processPosition s cfg).num_elastic_p = cfg.num_elastic_p + (rowPosTally s).elastic ∧
    (processPosition s cfg).num_boundary_p = cfg.num_boundary_p + (rowPosTally s).boundary ∧
    (processPosition s cfg).num_total_p = cfg.num_total_p + (rowPosTally s).total ∧
    (processPosition s cfg).num_membranes = cfg.num_membranes ∧
    (processPosition s cfg).boundsWrites = cfg.boundsWrites := by
  unfold processPosition rowPosTally
  split
  · split
    · dsimp only; split_ifs <;> simp
    · simp
  · simp

theorem processMembrane_counters (s : Line) (cfg : SimConfig) :
    (processMembrane s cfg).num_liquid_p = cfg.num_liquid_p ∧
    (processMembrane s cfg).num_elastic_p = cfg.num_elastic_p ∧
    (processMembrane s cfg).num_boundary_p = cfg.num_boundary_p ∧
    (processMembrane s cfg).num_total_p = cfg.num_total_p ∧
    (processMembrane s cfg).num_membranes = cfg.num_membranes + (rowMemTally s).membranes ∧
    (processMembrane s cfg).boundsWrites = cfg.boundsWrites := by
  unfold processMembrane rowMemTally
  split_ifs <;> simp

@[simp] theorem rowPosTally_membranes (s : Line) : (rowPosTally s).membranes = 0 := by
  unfold rowPosTally; split
  · split
    · dsimp only; split_ifs <;> rfl
    · rfl
  · rfl

@[simp] theorem rowPosTally_bwrites (s : Line) : (rowPosTally s).bwrites = 0 := by
  unfold rowPosTally; split
  · split
    · dsimp only; split_ifs <;> rfl
    · rfl
  · rfl

@[simp] theorem rowMemTally_liquid (s : Line) : (rowMemTally s).liquid = 0 := by
  unfold rowMemTally; split_ifs <;> rfl

@[simp] theorem rowMemTally_elastic (s : Line) : (rowMemTally s).elastic = 0 := by
  unfold rowMemTally; split_ifs <;> rfl

@[simp] theorem rowMemTally_boundary (s : Line) : (rowMemTally s).boundary = 0 := by
  unfold rowMemTally; split_ifs <;> rfl

@[simp] theorem rowMemTally_total (s : Line) : (rowMemTally s).total = 0 := by
  unfold rowMemTally; split_ifs <;> rfl

@[simp] theorem rowMemTally_bwrites (s : Line) : (rowMemTally s).bwrites = 0 := by
  unfold rowMemTally; split_ifs <;> rfl

/-- Counter bookkeeping of a run: on success, each counter of the returned
record is its initial value plus the corresponding component of the scan's
tally. -/
theorem preloadLoop_tally (ls : List Line) (sec : Option Line) (pos : ℕ) (cfg : SimConfig) :
    ∀ r, preloadLoop ls sec pos cfg = Except.ok r →
      r.num_liquid_p = cfg.num_liquid_p + (scanTally ls sec).liquid ∧
      r.num_elastic_p = cfg.num_elastic_p + (scanTally ls sec).elastic ∧
      r.num_boundary_p = cfg.num_boundary_p + (scanTally ls sec).boundary ∧
      r.num_total_p = cfg.num_total_p + (scanTally ls sec).total ∧
      r.num_membranes = cfg.num_membranes + (scanTally ls sec).membranes ∧
      r.boundsWrites = cfg.boundsWrites + (scanTally ls sec).bwrites := by
  induction ls, sec, pos, cfg using preloadLoop.induct with
  | case1 sec pos cfg =>
    intro r hr
    have hr' : Except.ok cfg = Except.ok r := hr
    cases hr'
    simp [scanTally]
  | case2 ln rest sec pos cfg hsk ih =>
    intro r hr
    rw [preloadLoop_cons] at hr
    rw [scanTally_cons]
    simp only [hsk, if_true] at hr ⊢
    exact ih r hr
  | case3 ln sec pos cfg hsk hhd hsb b1 b2 b3 b4 b5 b6 rest' v1 v2 v3 v4 v5 v6 hread ih =>
    intro r hr
    rw [preloadLoop_cons] at hr
    rw [scanTally_cons]
    simp only [hsk, hhd, hsb, hread, if_true, if_false, Bool.false_eq_true] at hr ⊢
    obtain ⟨e1, e2, e3, e4, e5, e6⟩ := ih r hr
    simp only [Tally.add] at e1 e2 e3 e4 e5 e6 ⊢
    refine ⟨?_, ?_, ?_, ?_, ?_, ?_⟩ <;> simp at e1 e2 e3 e4 e5 e6 ⊢ <;> omega
  | case4 ln sec pos cfg hsk hhd hsb b1 b2 b3 b4 b5 b6 rest' hread =>
    intro r hr
    rw [preloadLoop_cons] at hr
    simp [hsk, hhd, hsb, hread] at hr
  | case5 ln rest sec pos cfg hsk hhd hsb hshort =>
    intro r hr
    rw [preloadLoop_simbox_short ln rest sec pos cfg hsk hsb
      (fun b1 b2 b3 b4 b5 b6 rest' hne => hshort b1 b2 b3 b4 b5 b6 rest' hne)] at hr
    exact absurd hr (by simp)
  | case6 ln rest sec pos cfg hsk hhd hsb ih =>
    intro r hr
    rw [preloadLoop_cons] at hr
    rw [scanTally_cons]
    simp only [hsk, hhd, hsb, if_true, if_false, Bool.false_eq_true, reduceIte] at hr ⊢
    exact ih r hr
  | case7 ln rest pos cfg hsk hhd ih =>
    intro r hr
    rw [preloadLoop_cons] at hr
    rw [scanTally_cons]
    simp only [hsk, hhd, if_true, if_false, Bool.false_eq_true, reduceIte] at hr ⊢
    obtain ⟨e1, e2, e3, e4, e5, e6⟩ := ih r hr
    obtain ⟨p1, p2, p3, p4, p5, p6⟩ := processPhys_counters (pyStrip ln) cfg
    refine ⟨?_, ?_, ?_, ?_, ?_, ?_⟩ <;> omega
  | case8 ln rest pos cfg hsk hhd hne ih =>
    intro r hr
    rw [preloadLoop_cons] at hr
    rw [scanTally_cons]
    simp only [hsk, hhd, hne, if_true, if_false, Bool.false_eq_true, reduceIte] at hr ⊢
    obtain ⟨e1, e2, e3, e4, e5, e6⟩ := ih r hr
    obtain ⟨p1, p2, p3, p4, p5, p6⟩ := processPosition_counters (pyStrip ln) cfg
    simp only [Tally.add, rowPosTally_membranes, rowPosTally_bwrites] at e1 e2 e3 e4 e5 e6 ⊢
    refine ⟨?_, ?_, ?_, ?_, ?_, ?_⟩ <;> omega
  | case9 ln rest pos cfg hsk hhd hne1 hne2 ih =>
    intro r hr
    rw [preloadLoop_cons] at hr
    rw [scanTally_cons]
    simp only [hsk, hhd, hne1, hne2, if_true, if_false, Bool.false_eq_true, reduceIte] at hr ⊢
    obtain ⟨e1, e2, e3, e4, e5, e6⟩ := ih r hr
    obtain ⟨p1, p2, p3, p4, p5, p6⟩ := processMembrane_counters (pyStrip ln) cfg
    simp only [Tally.add, rowMemTally_liquid, rowMemTally_elastic, rowMemTally_boundary,
      rowMemTally_total, rowMemTally_bwrites] at e1 e2 e3 e4 e5 e6 ⊢
    refine ⟨?_, ?_, ?_, ?_, ?_, ?_⟩ <;> omega
  | case10 ln rest pos cfg hsk hhd hne1 hne2 hne3 =>
    intro r hr
    rw [preloadLoop_cons] at hr
    rw [scanTally_cons]
    simp only [hsk, hhd, hne1, hne2, hne3, if_true, if_false, Bool.false_eq_true, reduceIte,
      Except.ok.injEq] at hr ⊢
    subst hr
    simp
  | case11 ln rest pos cfg hsk hhd hne1 hne2 hne3 hne4 =>
    intro r hr
    rw [preloadLoop_cons] at hr
    rw [scanTally_cons]
    simp only [hsk, hhd, hne1, hne2, hne3, hne4, if_true, if_false, Bool.false_eq_true, reduceIte,
      Except.ok.injEq] at hr ⊢
    subst hr
    simp
  | case12 ln rest sec pos cfg hsk hhd hne1 hne2 hne3 hne4 hne5 ih =>
    intro r hr
    rw [preloadLoop_cons] at hr
    rw [scanTally_cons]
    simp only [hsk, hhd, hne1, hne2, hne3, hne4, hne5, if_true, if_false, Bool.false_eq_true,
      reduceIte] at hr ⊢
    exact ih r hr

/-- Frame property of the bounds: when no remaining line is the
`[simulation box]` header, a successful run leaves the six bounds, the
resume position and the ghost write counter untouched. -/
theorem preloadLoop_bounds_frame (ls : List Line) (sec : Option Line) (pos : ℕ)
    (cfg : SimConfig) :
    (∀ x ∈ ls, pyStrip x ≠ simboxHdr) →
    ∀ r, preloadLoop ls sec pos cfg = Except.ok r → boundsPart r = boundsPart cfg := by
  induction ls, sec, pos, cfg using preloadLoop.induct with
  | case1 sec pos cfg =>
    intro _ r hr
    have hr' : Except.ok cfg = Except.ok r := hr
    cases hr'; rfl
  | case2 ln rest sec pos cfg hsk ih =>
    intro h r hr
    rw [preloadLoop_cons] at hr
    simp only [hsk, if_true] at hr
    exact ih (fun x hx => h x (by simp [hx])) r hr
  | case3 ln sec pos cfg hsk hhd hsb b1 b2 b3 b4 b5 b6 rest' v1 v2 v3 v4 v5 v6 hread ih =>
    intro h r hr
    exact absurd hsb (h ln (by simp))
  | case4 ln sec pos cfg hsk hhd hsb b1 b2 b3 b4 b5 b6 rest' hread =>
    intro h r hr
    exact absurd hsb (h ln (by simp))
  | case5 ln rest sec pos cfg hsk hhd hsb hshort =>
    intro h r hr
    exact absurd hsb (h ln (by simp))
  | case6 ln rest sec pos cfg hsk hhd hsb ih =>
    intro h r hr
    rw [preloadLoop_cons] at hr
    simp only [hsk, hhd, hsb, if_true, if_false, Bool.false_eq_true, reduceIte] at hr
    exact ih (fun x hx => h x (by simp [hx])) r hr
  | case7 ln rest pos cfg hsk hhd ih =>
    intro h r hr
    rw [preloadLoop_cons] at hr
    simp only [hsk, hhd, if_true, if_false, Bool.false_eq_true, reduceIte] at hr
    rw [ih (fun x hx => h x (by simp [hx])) r hr]
    exact processPhys_bounds (pyStrip ln) cfg
  | case8 ln rest pos cfg hsk hhd hne ih =>
    intro h r hr
    rw [preloadLoop_cons] at hr
    simp only [hsk, hhd, hne, if_true, if_false, Bool.false_eq_true, reduceIte] at hr
    rw [ih (fun x hx => h x (by simp [hx])) r hr]
    exact processPosition_bounds (pyStrip ln) cfg
  | case9 ln rest pos cfg hsk hhd hne1 hne2 ih =>
    intro h r hr
    rw [preloadLoop_cons] at hr
    simp only [hsk, hhd, hne1, hne2, if_true, if_false, Bool.false_eq_true, reduceIte] at hr
    rw [ih (fun x hx => h x (by simp [hx])) r hr]
    exact processMembrane_bounds (pyStrip ln) cfg
  | case10 ln rest pos cfg hsk hhd hne1 hne2 hne3 =>
    intro h r hr
    rw [preloadLoop_cons] at hr
    simp only [hsk, hhd, hne1, hne2, hne3, if_true, if_false, Bool.false_eq_true, reduceIte,
      Except.ok.injEq] at hr
    subst hr; rfl
  | case11 ln rest pos cfg hsk hhd hne1 hne2 hne3 hne4 =>
    intro h r hr
    rw [preloadLoop_cons] at hr
    simp only [hsk, hhd, hne1, hne2, hne3, hne4, if_true, if_false, Bool.false_eq_true,
      reduceIte, Except.ok.injEq] at hr
    subst hr; rfl
  | case12 ln rest sec pos cfg hsk hhd hne1 hne2 hne3 hne4 hne5 ih =>
    intro h r hr
    rw [preloadLoop_cons] at hr
    simp only [hsk, hhd, hne1, hne2, hne3, hne4, hne5, if_true, if_false, Bool.false_eq_true,
      reduceIte] at hr
    exact ih (fun x hx => h x (by simp [hx])) r hr

/-- Frame property of the constants map: while the current section is not
`[physical parameters]` and no remaining line is that header, a successful
run leaves `physical_constants` untouched. -/
theorem preloadLoop_constants_frame (ls : List Line) (sec : Option Line) (pos : ℕ)
    (cfg : SimConfig) :
    sec ≠ some physHdr → (∀ x ∈ ls, pyStrip x ≠ physHdr) →
    ∀ r, preloadLoop ls sec pos cfg = Except.ok r →
      r.physical_constants = cfg.physical_constants := by
  induction ls, sec, pos, cfg using preloadLoop.induct with
  | case1 sec pos cfg =>
    intro _ _ r hr
    have hr' : Except.ok cfg = Except.ok r := hr
    cases hr'; rfl
  | case2 ln rest sec pos cfg hsk ih =>
    intro hsec h r hr
    rw [preloadLoop_cons] at hr
    simp only [hsk, if_true] at hr
    exact ih hsec (fun x hx => h x (by simp [hx])) r hr
  | case3 ln sec pos cfg hsk hhd hsb b1 b2 b3 b4 b5 b6 rest' v1 v2 v3 v4 v5 v6 hread ih =>
    intro hsec h r hr
    rw [preloadLoop_cons] at hr
    simp only [hsk, hhd, hsb, hread, if_true, if_false, Bool.false_eq_true] at hr
    exact ih (by simp) (fun x hx => h x (by simp [hx])) r hr
  | case4 ln sec pos cfg hsk hhd hsb b1 b2 b3 b4 b5 b6 rest' hread =>
    intro hsec h r hr
    rw [preloadLoop_cons] at hr
    simp [hsk, hhd, hsb, hread] at hr
  | case5 ln rest sec pos cfg hsk hhd hsb hshort =>
    intro hsec h r hr
    rw [preloadLoop_simbox_short ln rest sec pos cfg hsk hsb
      (fun b1 b2 b3 b4 b5 b6 rest' hne => hshort b1 b2 b3 b4 b5 b6 rest' hne)] at hr
    exact absurd hr (by simp)
  | case6 ln rest sec pos cfg hsk hhd hsb ih =>
    intro hsec h r hr
    rw [preloadLoop_cons] at hr
    simp only [hsk, hhd, hsb, if_true, if_false, Bool.false_eq_true, reduceIte] at hr
    have hnp : some (pyStrip ln) ≠ some physHdr := by
      simpa using h ln (by simp)
    exact ih hnp (fun x hx => h x (by simp [hx])) r hr
  | case7 ln rest pos cfg hsk hhd ih =>
    intro hsec h r hr
    exact absurd rfl hsec
  | case8 ln rest pos cfg hsk hhd hne ih =>
    intro hsec h r hr
    rw [preloadLoop_cons] at hr
    simp only [hsk, hhd, hne, if_true, if_false, Bool.false_eq_true, reduceIte] at hr
    rw [ih hsec (fun x hx => h x (by simp [hx])) r hr]
    exact processPosition_constants (pyStrip ln) cfg
  | case9 ln rest pos cfg hsk hhd hne1 hne2 ih =>
    intro hsec h r hr
    rw [preloadLoop_cons] at hr
    simp only [hsk, hhd, hne1, hne2, if_true, if_false, Bool.false_eq_true, reduceIte] at hr
    rw [ih hsec (fun x hx => h x (by simp [hx])) r hr]
    exact processMembrane_constants (pyStrip ln) cfg
  | case10 ln rest pos cfg hsk hhd hne1 hne2 hne3 =>
    intro hsec h r hr
    rw [preloadLoop_cons] at hr
    simp only [hsk, hhd, hne1, hne2, hne3, if_true, if_false, Bool.false_eq_true, reduceIte,
      Except.ok.injEq] at hr
    subst hr; rfl
  | case11 ln rest pos cfg hsk hhd hne1 hne2 hne3 hne4 =>
    intro hsec h r hr
    rw [preloadLoop_cons] at hr
    simp only [hsk, hhd, hne1, hne2, hne3, hne4, if_true, if_false, Bool.false_eq_true,
      reduceIte, Except.ok.injEq] at hr
    subst hr; rfl
  | case12 ln rest sec pos cfg hsk hhd hne1 hne2 hne3 hne4 hne5 ih =>
    intro hsec h r hr
    rw [preloadLoop_cons] at hr
    simp only [hsk, hhd, hne1, hne2, hne3, hne4, hne5, if_true, if_false, Bool.false_eq_true,
      reduceIte] at hr
    exact ih hsec (fun x hx => h x (by simp [hx])) r hr

/-- A line whose stripped form is skipped by the main loop (blank, `//`, `#`)
can never parse as a float: this is what makes such a line fatal when it
appears among the six raw simulation-box body lines. -/
theorem skip_pyFloat_none (c : Line) (h : isSkip (pyStrip c) = true) : pyFloat c = none := by
  unfold pyFloat
  unfold isSkip at h
  split at h
  · rename_i heq; rw [heq]; rfl
  · rename_i heq; rw [heq]; rfl
  · rename_i heq; rw [heq]; rfl
  · simp at h

/-- The tally of a scan that dies inside a truncated simulation-box block is
empty (the corresponding run errors out). -/
theorem scanTally_simbox_short (ln : Line) (rest : List Line) (sec : Option Line)
    (hsb : pyStrip ln = simboxHdr)
    (hshort : ∀ (b1 b2 b3 b4 b5 b6 : Line) (rest' : List Line),
      rest ≠ b1 :: b2 :: b3 :: b4 :: b5 :: b6 :: rest') :
    scanTally (ln :: rest) sec = {} := by
  rcases rest with _ | ⟨c1, _ | ⟨c2, _ | ⟨c3, _ | ⟨c4, _ | ⟨c5, _ | ⟨c6, r⟩⟩⟩⟩⟩⟩
  · simp [scanTally_cons, hsb]
  · simp [scanTally_cons, hsb]
  · simp [scanTally_cons, hsb]
  · simp [scanTally_cons, hsb]
  · simp [scanTally_cons, hsb]
  · simp [scanTally_cons, hsb]
  · exact absurd rfl (hshort c1 c2 c3 c4 c5 c6 r)

@[simp] theorem rowMemTally_unknown (s : Line) : (rowMemTally s).unknown = 0 := by
  unfold rowMemTally; split_ifs <;> rfl

/-- Each `[position]` row contributes to `total` exactly the sum of its
contributions to the three typed counters and the unknown-code count. -/
theorem rowPosTally_total (s : Line) :
    (rowPosTally s).total = (rowPosTally s).liquid + (rowPosTally s).elastic +
      (rowPosTally s).boundary + (rowPosTally s).unknown := by
  unfold rowPosTally
  split
  · split
    · dsimp only; split_ifs <;> rfl
    · rfl
  · rfl

/-- Summed over a whole scan: the `total` tally is the sum of the three typed
tallies and the unknown-code tally. -/
theorem scanTally_total (ls : List Line) (sec : Option Line) :
    (scanTally ls sec).total = (scanTally ls sec).liquid + (scanTally ls sec).elastic +
      (scanTally ls sec).boundary + (scanTally ls sec).unknown := by
  induction ls, sec using scanTally.induct with
  | case1 sec => simp [scanTally]
  | case2 ln rest sec hsk ih =>
    rw [scanTally_cons]; simp only [hsk, if_true]; exact ih
  | case3 ln sec hsk hhd hsb b1 b2 b3 b4 b5 b6 rest' v hread ih =>
    rw [scanTally_cons]
    simp only [hsk, hhd, hsb, hread, if_true, if_false, Bool.false_eq_true, Tally.add]
    simp only [Tally.add] at ih
    simp at ih ⊢
    omega
  | case4 ln sec hsk hhd hsb b1 b2 b3 b4 b5 b6 rest' hread =>
    rw [scanTally_cons]
    simp [hsk, hhd, hsb, hread]
  | case5 ln rest sec hsk hhd hsb hshort =>
    rw [scanTally_simbox_short ln rest sec hsb
      (fun b1 b2 b3 b4 b5 b6 rest' hne => hshort b1 b2 b3 b4 b5 b6 rest' hne)]
    rfl
  | case6 ln rest sec hsk hhd hsb ih =>
    rw [scanTally_cons]
    simp only [hsk, hhd, hsb, if_true, if_false, Bool.false_eq_true, reduceIte]
    exact ih
  | case7 ln rest hsk hhd ih =>
    rw [scanTally_cons]
    simp only [hsk, hhd, if_true, if_false, Bool.false_eq_true, reduceIte]
    exact ih
  | case8 ln rest hsk hhd hne ih =>
    rw [scanTally_cons]
    simp only [hsk, hhd, hne, if_true, if_false, Bool.false_eq_true, reduceIte, Tally.add]
    have := rowPosTally_total (pyStrip ln)
    simp at this ih ⊢
    omega
  | case9 ln rest hsk hhd hne1 hne2 ih =>
    rw [scanTally_cons]
    simp only [hsk, hhd, hne1, hne2, if_true, if_false, Bool.false_eq_true, reduceIte, Tally.add]
    simp at ih ⊢
    omega
  | case10 ln rest hsk hhd hne1 hne2 hne3 =>
    rw [scanTally_cons]
    simp [hsk, hhd, hne1, hne2, hne3]
  | case11 ln rest hsk hhd hne1 hne2 hne3 hne4 =>
    rw [scanTally_cons]
    simp [hsk, hhd, hne1, hne2, hne3, hne4]
  | case12 ln rest sec hsk hhd hne1 hne2 hne3 hne4 hne5 ih =>
    rw [scanTally_cons]
    simp only [hsk, hhd, hne1, hne2, hne3, hne4, hne5, if_true, if_false, Bool.false_eq_true,
      reduceIte]
    exact ih

/-- Looking up a just-inserted key returns the inserted value (last write
wins). -/
theorem dictLookup_dictInsert_self (m : List (Line × ℚ)) (k : Line) (v : ℚ) :
    dictLookup (dictInsert m k v) k = some v := by
  induction m with
  | nil => simp [dictInsert, dictLookup]
  | cons p t ih =>
    obtain ⟨k', v'⟩ := p
    by_cases h : k' = k
    · simp [dictInsert, dictLookup, h]
    · simp [dictInsert, dictLookup, h, ih]

/-- Inserting one key leaves the values of all other keys unchanged. -/
theorem dictLookup_dictInsert_ne (m : List (Line × ℚ)) (k k' : Line) (v : ℚ)
    (h : k' ≠ k) : dictLookup (dictInsert m k v) k' = dictLookup m k' := by
  induction m with
  | nil => simp [dictInsert, dictLookup, Ne.symm h]
  | cons p t ih =>
    obtain ⟨k0, v0⟩ := p
    by_cases h0 : k0 = k
    · subst h0
      simp [dictInsert, dictLookup, Ne.symm h]
    · simp only [dictInsert, h0, if_false]
      by_cases h1 : k0 = k'
      · simp [dictLookup, h1]
      · simp [dictLookup, h1, ih]

/-- C1: on the concrete file with a `[simulation box]` section whose six body
lines are 0, 10, 0, 10, 0, 10, a `[position]` section with two rows of type
code 0 and 2, a `[membranes]` section with the single row `1\t2\t0`, and the
`[end]` header, `preload_config` returns the record with bounds
(0,10,0,10,0,10), one liquid particle, one boundary particle, no elastic
particles, two particles in total, and one membrane. -/
theorem claim_C1 :
    preload fileC1 = Except.ok
      { xmin := 0, xmax := 10, ymin := 0, ymax := 10, zmin := 0, zmax := 10,
        num_liquid_p := 1, num_elastic_p := 0, num_boundary_p := 1, num_total_p := 2,
        num_membranes := 1, read_position_after_simbox := 7, boundsWrites := 1 } := by
  decide

/-- C2 (counterexample): the claimed invariant
`num_total_p = num_liquid_p + num_elastic_p + num_boundary_p` fails on the
file whose single position row has the unrecognized type code 5: the run
returns with `num_total_p = 1` while all three typed counters are 0. -/
theorem claim_C2_counterexample :
    ¬ (∀ (ls : List Line) (r : SimConfig), preload ls = Except.ok r →
        r.num_total_p = r.num_liquid_p + r.num_elastic_p + r.num_boundary_p) := fun h => by
  have hc := h fileC2 { num_total_p := 1 } (by decide)
  exact absurd hc (by decide)

/-- C2 (amended): on every successful run, `num_total_p` equals
`num_liquid_p + num_elastic_p + num_boundary_p` plus the number of
`[position]` rows scanned whose type field parses but truncates to an
unrecognized code. -/
theorem claim_C2_amended (ls : List Line) (r : SimConfig)
    (h : preload ls = Except.ok r) :
    r.num_total_p = r.num_liquid_p + r.num_elastic_p + r.num_boundary_p +
      (scanTally ls none).unknown := by
  obtain ⟨e1, e2, e3, e4, e5, e6⟩ := preloadLoop_tally ls none 0 {} r h
  have ht := scanTally_total ls none
  simp only [show ({} : SimConfig).num_liquid_p = 0 from rfl,
    show ({} : SimConfig).num_elastic_p = 0 from rfl,
    show ({} : SimConfig).num_boundary_p = 0 from rfl,
    show ({} : SimConfig).num_total_p = 0 from rfl] at e1 e2 e3 e4
  omega

theorem claim_C2_witness :
    preload fileC2 = Except.ok { num_total_p := 1 } ∧
    ({ num_total_p := 1 } : SimConfig).num_total_p =
      ({ num_total_p := 1 } : SimConfig).num_liquid_p +
      ({ num_total_p := 1 } : SimConfig).num_elastic_p +
      ({ num_total_p := 1 } : SimConfig).num_boundary_p +
      (scanTally fileC2 none).unknown :=
  ⟨by decide, claim_C2_amended fileC2 { num_total_p := 1 } (by decide)⟩

/-- C3 (counterexample): a `[position]` row with at least four fields whose
type field truncates to an unrecognized code does NOT leave all four
counters unchanged — on the row `0\t0\t0\t5` the total counter grows. -/
theorem claim_C3_counterexample :
    ¬ (∀ (s : Line) (cfg : SimConfig) (q : ℚ),
        (splitTab s).length ≥ 4 → pyFloat ((splitTab s).getD 3 []) = some q →
        ratTrunc q ≠ 0 → ratTrunc q ≠ 1 → ratTrunc q ≠ 2 →
        (processPosition s cfg).num_liquid_p = cfg.num_liquid_p ∧
        (processPosition s cfg).num_elastic_p = cfg.num_elastic_p ∧
        (processPosition s cfg).num_boundary_p = cfg.num_boundary_p ∧
        (processPosition s cfg).num_total_p = cfg.num_total_p) := fun h => by
  have hc := (h (chars "0\t0\t0\t5") {} 5 (by decide) (by decide) (by decide) (by decide)
    (by decide)).2.2.2
  exact absurd hc (by decide)

/-- C3 (amended): a recognized-shape row with an unrecognized type code
increments exactly the total counter; a row with fewer than four fields, or
an unparseable type field, changes nothing. -/
theorem claim_C3_amended :
    (∀ (s : Line) (cfg : SimConfig) (q : ℚ),
      (splitTab s).length ≥ 4 → pyFloat ((splitTab s).getD 3 []) = some q →
      ratTrunc q ≠ 0 → ratTrunc q ≠ 1 → ratTrunc q ≠ 2 →
      processPosition s cfg = { cfg with num_total_p := cfg.num_total_p + 1 }) ∧
    (∀ (s : Line) (cfg : SimConfig), (splitTab s).length < 4 →
      processPosition s cfg = cfg) ∧
    (∀ (s : Line) (cfg : SimConfig), (splitTab s).length ≥ 4 →
      pyFloat ((splitTab s).getD 3 []) = none → processPosition s cfg = cfg) := by
  refine ⟨?_, ?_, ?_⟩
  · intro s cfg q hlen hq h0 h1 h2
    rcases hs : splitTab s with _ | ⟨a, _ | ⟨b, _ | ⟨c, _ | ⟨p3, rest⟩⟩⟩⟩ <;>
      rw [hs] at hlen <;> try simp at hlen
    rw [hs] at hq
    simp only [List.getD_cons_succ, List.getD_cons_zero] at hq
    unfold processPosition
    rw [hs]
    dsimp only
    rw [hq]
    dsimp only
    rw [if_neg h0, if_neg h1, if_neg h2]
  · intro s cfg hlen
    rcases hs : splitTab s with _ | ⟨a, _ | ⟨b, _ | ⟨c, _ | ⟨p3, rest⟩⟩⟩⟩ <;>
      rw [hs] at hlen <;> unfold processPosition <;> rw [hs] <;> first
      | rfl
      | (exfalso; simp at hlen; omega)
  · intro s cfg hlen hq
    rcases hs : splitTab s with _ | ⟨a, _ | ⟨b, _ | ⟨c, _ | ⟨p3, rest⟩⟩⟩⟩ <;>
      rw [hs] at hlen <;> try simp at hlen
    rw [hs] at hq
    simp only [List.getD_cons_succ, List.getD_cons_zero] at hq
    unfold processPosition
    rw [hs]
    dsimp only
    rw [hq]

theorem claim_C3_witness :
    processPosition (chars "0\t0\t0\t5") {} =
      { num_total_p := ({} : SimConfig).num_total_p + 1 } ∧
    processPosition (chars "ab") {} = {} ∧
    processPosition (chars "0\t0\t0\tx") {} = {} :=
  ⟨claim_C3_amended.1 (chars "0\t0\t0\t5") {} 5 (by decide) (by decide) (by decide) (by decide)
      (by decide),
   claim_C3_amended.2.1 (chars "ab") {} (by decide),
   claim_C3_amended.2.2 (chars "0\t0\t0\tx") {} (by decide) (by decide)⟩

/-- C4 (counterexample): content after the `[end]` header is not inert — a
later `[position]` header resumes scanning, and the row after it changes the
returned record. -/
theorem claim_C4_counterexample :
    preload fileC4a = Except.ok { num_liquid_p := 1, num_total_p := 1 } ∧
    preload fileC4b = Except.ok {} ∧
    ({ num_liquid_p := 1, num_total_p := 1 } : SimConfig) ≠ {} := by
  exact ⟨by decide, by decide, by decide⟩

/-- C4 (amended): once the current section is `[particleMemIndex]` or
`[end]`, the pass skips blank and comment lines, stops at the first data
line or at end of input, and returns the record unchanged; content after the
header can only matter if a later section-header line appears. -/
theorem claim_C4_amended (rest : List Line) (sec : Option Line) (pos : ℕ) (cfg : SimConfig)
    (hsec : sec = some pmiHdr ∨ sec = some endHdr)
    (hnohdr : ∀ x ∈ rest, isHeader (pyStrip x) = false) :
    preloadLoop rest sec pos cfg = Except.ok cfg := by
  induction rest generalizing pos with
  | nil => rfl
  | cons ln t ih =>
    rw [preloadLoop_cons]
    by_cases hsk : isSkip (pyStrip ln) = true
    · rw [if_pos hsk]
      exact ih (pos + 1) (fun x hx => hnohdr x (by simp [hx]))
    · have hhd : isHeader (pyStrip ln) = false := hnohdr ln (by simp)
      rcases hsec with h | h <;> subst h <;> simp [hsk, hhd]

theorem claim_C4_witness :
    preloadLoop [chars "0\t0\t0\t0"] (some endHdr) 0 {} = Except.ok {} :=
  claim_C4_amended [chars "0\t0\t0\t0"] (some endHdr) 0 {} (Or.inr rfl) (by decide)

/-- C10: a non-blank, non-comment, non-header data line read while no
section is active (before any header, or right after a simulation-box block,
which resets the section to none) is ignored: the pass continues on the
remaining lines with the record unchanged and no error. -/
theorem claim_C10 (ln : Line) (ls : List Line) (pos : ℕ) (cfg : SimConfig)
    (h1 : isSkip (pyStrip ln) = false) (h2 : isHeader (pyStrip ln) = false) :
    preloadLoop (ln :: ls) none pos cfg = preloadLoop ls none (pos + 1) cfg := by
  rw [preloadLoop_cons]
  simp [h1, h2]

theorem claim_C10_witness :
    preloadLoop [chars "stray data", chars "[end]"] none 0 {} =
      preloadLoop [chars "[end]"] none 1 {} :=
  claim_C10 (chars "stray data") [chars "[end]"] 0 {} (by decide) (by decide)

/-- C5: when the scan processes a `[simulation box]` header, then (i) if the
six following lines all parse as floats and no later simulation-box block
follows, the bounds of the returned record are exactly those six values in
file order, and (ii) if the six lines cannot all be read and parsed (too few
lines, or a parse failure), the whole preload aborts with the fatal error and
no record is returned. -/
theorem claim_C5 :
    (∀ (hl b1 b2 b3 b4 b5 b6 : Line) (sfx : List Line) (sec : Option Line) (pos : ℕ)
        (cfg r : SimConfig) (v1 v2 v3 v4 v5 v6 : ℚ),
      pyStrip hl = simboxHdr →
      pyFloat b1 = some v1 → pyFloat b2 = some v2 → pyFloat b3 = some v3 →
      pyFloat b4 = some v4 → pyFloat b5 = some v5 → pyFloat b6 = some v6 →
      (∀ x ∈ sfx, pyStrip x ≠ simboxHdr) →
      preloadLoop (hl :: b1 :: b2 :: b3 :: b4 :: b5 :: b6 :: sfx) sec pos cfg = Except.ok r →
      r.xmin = v1 ∧ r.xmax = v2 ∧ r.ymin = v3 ∧ r.ymax = v4 ∧ r.zmin = v5 ∧ r.zmax = v6) ∧
    (∀ (hl : Line) (body : List Line) (sec : Option Line) (pos : ℕ) (cfg : SimConfig),
      pyStrip hl = simboxHdr →
      (¬ ∃ (b1 b2 b3 b4 b5 b6 : Line) (rest' : List Line),
          body = b1 :: b2 :: b3 :: b4 :: b5 :: b6 :: rest' ∧
          (readSimBox6 b1 b2 b3 b4 b5 b6).isSome = true) →
      preloadLoop (hl :: body) sec pos cfg = Except.error ()) := by
  constructor
  · intro hl b1 b2 b3 b4 b5 b6 sfx sec pos cfg r v1 v2 v3 v4 v5 v6 hsb h1 h2 h3 h4 h5 h6
      hnos hrun
    have hread : readSimBox6 b1 b2 b3 b4 b5 b6 = some (v1, v2, v3, v4, v5, v6) := by
      simp [readSimBox6, h1, h2, h3, h4, h5, h6]
    rw [preloadLoop_cons] at hrun
    simp only [hsb, isSkip_simboxHdr, isHeader_simboxHdr, Bool.false_eq_true, if_false,
      if_true, hread] at hrun
    have hframe := preloadLoop_bounds_frame sfx none (pos + 7) _ hnos r hrun
    simp only [boundsPart, Prod.mk.injEq] at hframe
    exact ⟨hframe.1, hframe.2.1, hframe.2.2.1, hframe.2.2.2.1, hframe.2.2.2.2.1,
      hframe.2.2.2.2.2.1⟩
  · intro hl body sec pos cfg hsb hne
    rcases body with _ | ⟨c1, _ | ⟨c2, _ | ⟨c3, _ | ⟨c4, _ | ⟨c5, _ | ⟨c6, rst⟩⟩⟩⟩⟩⟩
    · exact preloadLoop_simbox_short hl [] sec pos cfg (by rw [hsb]; simp) hsb
        (by intro b1 b2 b3 b4 b5 b6 rest' hx; simp at hx)
    · exact preloadLoop_simbox_short hl [c1] sec pos cfg (by rw [hsb]; simp) hsb
        (by intro b1 b2 b3 b4 b5 b6 rest' hx; simp at hx)
    · exact preloadLoop_simbox_short hl [c1, c2] sec pos cfg (by rw [hsb]; simp) hsb
        (by intro b1 b2 b3 b4 b5 b6 rest' hx; simp at hx)
    · exact preloadLoop_simbox_short hl [c1, c2, c3] sec pos cfg (by rw [hsb]; simp) hsb
        (by intro b1 b2 b3 b4 b5 b6 rest' hx; simp at hx)
    · exact preloadLoop_simbox_short hl [c1, c2, c3, c4] sec pos cfg (by rw [hsb]; simp) hsb
        (by intro b1 b2 b3 b4 b5 b6 rest' hx; simp at hx)
    · exact preloadLoop_simbox_short hl [c1, c2, c3, c4, c5] sec pos cfg (by rw [hsb]; simp)
        hsb (by intro b1 b2 b3 b4 b5 b6 rest' hx; simp at hx)
    · have hnone : readSimBox6 c1 c2 c3 c4 c5 c6 = none := by
        cases hr : readSimBox6 c1 c2 c3 c4 c5 c6 with
        | none => rfl
        | some v =>
          exact absurd ⟨c1, c2, c3, c4, c5, c6, rst, rfl, by simp [hr]⟩ hne
      rw [preloadLoop_cons]
      simp [hsb, hnone]

theorem claim_C5_witness :
    ((0 : ℚ) = 0 ∧ (10 : ℚ) = 10 ∧ (0 : ℚ) = 0 ∧ (10 : ℚ) = 10 ∧ (0 : ℚ) = 0 ∧
      (10 : ℚ) = 10) ∧
    preloadLoop [chars "[simulation box]", chars "5"] none 0 {} = Except.error () := by
  constructor
  · have hok :
        preloadLoop (chars "[simulation box]" :: chars "0" :: chars "10" :: chars "0" ::
            chars "10" :: chars "0" :: chars "10" :: []) none 0 {} = Except.ok
          { xmin := 0, xmax := 10, ymin := 0, ymax := 10, zmin := 0, zmax := 10,
            read_position_after_simbox := 7, boundsWrites := 1 } := by decide
    exact claim_C5.1 (chars "[simulation box]") (chars "0") (chars "10") (chars "0")
      (chars "10") (chars "0") (chars "10") [] none 0 {} _ 0 10 0 10 0 10 (by decide)
      (by decide) (by decide) (by decide) (by decide) (by decide) (by decide)
      (by intro x hx; simp at hx) hok
  · exact claim_C5.2 (chars "[simulation box]") [chars "5"] none 0 {} (by decide)
      (by rintro ⟨b1, b2, b3, b4, b5, b6, rest', hx, -⟩; simp at hx)

/-- C6 (counterexample): a comment line among the six simulation-box body
lines is NOT skipped — it is parsed as a bound and aborts the preload,
whereas the same file without the comment line succeeds. -/
theorem claim_C6_counterexample :
    preload fileC6a = Except.error () ∧
    preload fileC6b = Except.ok
      { xmin := 0, xmax := 10, ymin := 0, ymax := 10, zmin := 0, zmax := 10,
        read_position_after_simbox := 7, boundsWrites := 1 } :=
  ⟨by decide, by decide⟩

/-- If any of the six lines handed to the simulation-box sub-reader is a
blank or comment line (skipped elsewhere), the six-float read fails: such a
line never parses as a float, and one failed read makes the whole block
read fail. -/
theorem readSimBox6_none_of_skip (b1 b2 b3 b4 b5 b6 : Line)
    (h : isSkip (pyStrip b1) = true ∨ isSkip (pyStrip b2) = true ∨
         isSkip (pyStrip b3) = true ∨ isSkip (pyStrip b4) = true ∨
         isSkip (pyStrip b5) = true ∨ isSkip (pyStrip b6) = true) :
    readSimBox6 b1 b2 b3 b4 b5 b6 = none := by
  rcases h with h | h | h | h | h | h
  · simp [readSimBox6, skip_pyFloat_none _ h]
  · have hc := skip_pyFloat_none _ h
    cases h1 : pyFloat b1 <;> simp [readSimBox6, h1, hc]
  · have hc := skip_pyFloat_none _ h
    cases h1 : pyFloat b1 <;> cases h2 : pyFloat b2 <;> simp [readSimBox6, h1, h2, hc]
  · have hc := skip_pyFloat_none _ h
    cases h1 : pyFloat b1 <;> cases h2 : pyFloat b2 <;> cases h3 : pyFloat b3 <;>
      simp [readSimBox6, h1, h2, h3, hc]
  · have hc := skip_pyFloat_none _ h
    cases h1 : pyFloat b1 <;> cases h2 : pyFloat b2 <;> cases h3 : pyFloat b3 <;>
      cases h4 : pyFloat b4 <;> simp [readSimBox6, h1, h2, h3, h4, hc]
  · have hc := skip_pyFloat_none _ h
    cases h1 : pyFloat b1 <;> cases h2 : pyFloat b2 <;> cases h3 : pyFloat b3 <;>
      cases h4 : pyFloat b4 <;> cases h5 : pyFloat b5 <;>
      simp [readSimBox6, h1, h2, h3, h4, h5, hc]

/-- A `[simulation box]` header followed by at least six lines of which any
one of the first six is blank or a comment aborts the preload. -/
theorem preloadLoop_simbox_skipline (hl b1 b2 b3 b4 b5 b6 : Line) (rst : List Line)
    (sec : Option Line) (pos : ℕ) (cfg : SimConfig) (hsb : pyStrip hl = simboxHdr)
    (h : isSkip (pyStrip b1) = true ∨ isSkip (pyStrip b2) = true ∨
         isSkip (pyStrip b3) = true ∨ isSkip (pyStrip b4) = true ∨
         isSkip (pyStrip b5) = true ∨ isSkip (pyStrip b6) = true) :
    preloadLoop (hl :: b1 :: b2 :: b3 :: b4 :: b5 :: b6 :: rst) sec pos cfg =
      Except.error () := by
  have hnone := readSimBox6_none_of_skip b1 b2 b3 b4 b5 b6 h
  rw [preloadLoop_cons]
  simp [hsb, hnone]

/-- C6 (amended): a blank/comment line is skipped by the main loop in every
state (advancing only the read position, and with identical outcome whenever
no simulation-box block follows), but the six simulation-box body lines are
read raw: a blank or comment line at any of the six positions after the
header is not skipped — it fails the float parse and aborts the preload. -/
theorem claim_C6_amended :
    (∀ (ln : Line) (ls : List Line) (sec : Option Line) (pos : ℕ) (cfg : SimConfig),
      isSkip (pyStrip ln) = true →
      preloadLoop (ln :: ls) sec pos cfg = preloadLoop ls sec (pos + 1) cfg) ∧
    (∀ (ln : Line) (ls : List Line) (sec : Option Line) (pos : ℕ) (cfg : SimConfig),
      isSkip (pyStrip ln) = true → (∀ x ∈ ls, pyStrip x ≠ simboxHdr) →
      preloadLoop (ln :: ls) sec pos cfg = preloadLoop ls sec pos cfg) ∧
    (∀ (hl c : Line) (pfx sfx : List Line) (sec : Option Line) (pos : ℕ) (cfg : SimConfig),
      pyStrip hl = simboxHdr → isSkip (pyStrip c) = true → pfx.length ≤ 5 →
      preloadLoop (hl :: (pfx ++ c :: sfx)) sec pos cfg = Except.error ()) := by
  refine ⟨?_, ?_, ?_⟩
  · intro ln ls sec pos cfg h
    rw [preloadLoop_cons]
    simp [h]
  · intro ln ls sec pos cfg h hno
    rw [preloadLoop_cons]
    simp only [h, if_true]
    exact preloadLoop_pos_irrel ls sec (pos + 1) pos cfg hno
  · intro hl c pfx sfx sec pos cfg hsb hskc hlen
    have hsk' : ¬ isSkip (pyStrip hl) = true := by rw [hsb]; simp
    rcases pfx with _ | ⟨p1, _ | ⟨p2, _ | ⟨p3, _ | ⟨p4, _ | ⟨p5, prest⟩⟩⟩⟩⟩
    · rcases sfx with _ | ⟨s1, _ | ⟨s2, _ | ⟨s3, _ | ⟨s4, _ | ⟨s5, srest⟩⟩⟩⟩⟩
      · exact preloadLoop_simbox_short hl [c] sec pos cfg hsk' hsb
          (by intro b1 b2 b3 b4 b5 b6 rest' hx; simp at hx)
      · exact preloadLoop_simbox_short hl [c, s1] sec pos cfg hsk' hsb
          (by intro b1 b2 b3 b4 b5 b6 rest' hx; simp at hx)
      · exact preloadLoop_simbox_short hl [c, s1, s2] sec pos cfg hsk' hsb
          (by intro b1 b2 b3 b4 b5 b6 rest' hx; simp at hx)
      · exact preloadLoop_simbox_short hl [c, s1, s2, s3] sec pos cfg hsk' hsb
          (by intro b1 b2 b3 b4 b5 b6 rest' hx; simp at hx)
      · exact preloadLoop_simbox_short hl [c, s1, s2, s3, s4] sec pos cfg hsk' hsb
          (by intro b1 b2 b3 b4 b5 b6 rest' hx; simp at hx)
      · exact preloadLoop_simbox_skipline hl c s1 s2 s3 s4 s5 srest sec pos cfg hsb
          (Or.inl hskc)
    · rcases sfx with _ | ⟨s1, _ | ⟨s2, _ | ⟨s3, _ | ⟨s4, srest⟩⟩⟩⟩
      · exact preloadLoop_simbox_short hl [p1, c] sec pos cfg hsk' hsb
          (by intro b1 b2 b3 b4 b5 b6 rest' hx; simp at hx)
      · exact preloadLoop_simbox_short hl [p1, c, s1] sec pos cfg hsk' hsb
          (by intro b1 b2 b3 b4 b5 b6 rest' hx; simp at hx)
      · exact preloadLoop_simbox_short hl [p1, c, s1, s2] sec pos cfg hsk' hsb
          (by intro b1 b2 b3 b4 b5 b6 rest' hx; simp at hx)
      · exact preloadLoop_simbox_short hl [p1, c, s1, s2, s3] sec pos cfg hsk' hsb
          (by intro b1 b2 b3 b4 b5 b6 rest' hx; simp at hx)
      · exact preloadLoop_simbox_skipline hl p1 c s1 s2 s3 s4 srest sec pos cfg hsb
          (Or.inr (Or.inl hskc))
    · rcases sfx with _ | ⟨s1, _ | ⟨s2, _ | ⟨s3, srest⟩⟩⟩
      · exact preloadLoop_simbox_short hl [p1, p2, c] sec pos cfg hsk' hsb
          (by intro b1 b2 b3 b4 b5 b6 rest' hx; simp at hx)
      · exact preloadLoop_simbox_short hl [p1, p2, c, s1] sec pos cfg hsk' hsb
          (by intro b1 b2 b3 b4 b5 b6 rest' hx; simp at hx)
      · exact preloadLoop_simbox_short hl [p1, p2, c, s1, s2] sec pos cfg hsk' hsb
          (by intro b1 b2 b3 b4 b5 b6 rest' hx; simp at hx)
      · exact preloadLoop_simbox_skipline hl p1 p2 c s1 s2 s3 srest sec pos cfg hsb
          (Or.inr (Or.inr (Or.inl hskc)))
    · rcases sfx with _ | ⟨s1, _ | ⟨s2, srest⟩⟩
      · exact preloadLoop_simbox_short hl [p1, p2, p3, c] sec pos cfg hsk' hsb
          (by intro b1 b2 b3 b4 b5 b6 rest' hx; simp at hx)
      · exact preloadLoop_simbox_short hl [p1, p2, p3, c, s1] sec pos cfg hsk' hsb
          (by intro b1 b2 b3 b4 b5 b6 rest' hx; simp at hx)
      · exact preloadLoop_simbox_skipline hl p1 p2 p3 c s1 s2 srest sec pos cfg hsb
          (Or.inr (Or.inr (Or.inr (Or.inl hskc))))
    · rcases sfx with _ | ⟨s1, srest⟩
      · exact preloadLoop_simbox_short hl [p1, p2, p3, p4, c] sec pos cfg hsk' hsb
          (by intro b1 b2 b3 b4 b5 b6 rest' hx; simp at hx)
      · exact preloadLoop_simbox_skipline hl p1 p2 p3 p4 c s1 srest sec pos cfg hsb
          (Or.inr (Or.inr (Or.inr (Or.inr (Or.inl hskc)))))
    · rcases prest with _ | ⟨p6, prest2⟩
      · exact preloadLoop_simbox_skipline hl p1 p2 p3 p4 p5 c sfx sec pos cfg hsb
          (Or.inr (Or.inr (Or.inr (Or.inr (Or.inr hskc)))))
      · exfalso
        simp at hlen

theorem claim_C6_witness :
    preloadLoop [chars "# x", chars "[end]"] none 0 {} =
      preloadLoop [chars "[end]"] none 1 {} ∧
    preloadLoop [chars "# x", chars "[end]"] none 0 {} =
      preloadLoop [chars "[end]"] none 0 {} ∧
    preloadLoop [chars "[simulation box]", chars "0", chars "10", chars "0",
        chars "// note", chars "10", chars "0", chars "10"] none 0 {} =
      Except.error () :=
  ⟨claim_C6_amended.1 (chars "# x") [chars "[end]"] none 0 {} (by decide),
   claim_C6_amended.2.1 (chars "# x") [chars "[end]"] none 0 {} (by decide) (by decide),
   claim_C6_amended.2.2 (chars "[simulation box]") (chars "// note")
     [chars "0", chars "10", chars "0"] [chars "10", chars "0", chars "10"] none 0 {}
     (by decide) (by decide) (by decide)⟩

/-- C7 (counterexample): the line `mass : 1e5` matches the claimed grammar
(exponent allowed without a fractional part) but is rejected by
`read_phys_param`, and scanning it in a `[physical parameters]` section
leaves the constants map empty instead of inserting `(mass, 100000)`. -/
theorem claim_C7_counterexample :
    specPhysParamGrammar (chars "mass : 1e5") = true ∧
    read_phys_param (chars "mass : 1e5") = none ∧
    preload fileC7 = Except.ok {} :=
  ⟨by decide, by decide, by decide⟩

/-- C7 (amended): a `[physical parameters]` line matching the source regex —
in which an exponent is only permitted after a decimal point — upserts its
(name, value) pair into the constants dict, where the last write to a name
wins and other keys are untouched; non-matching lines leave the record
unchanged; and if no line of the file is the `[physical parameters]` header,
the returned constants map is empty. -/
theorem claim_C7_amended :
    (∀ (s : Line) (cfg : SimConfig) (n : Line) (v : ℚ),
      read_phys_param s = some (n, v) →
      (processPhys s cfg).physical_constants = dictInsert cfg.physical_constants n v) ∧
    (∀ (s : Line) (cfg : SimConfig), read_phys_param s = none → processPhys s cfg = cfg) ∧
    (∀ (m : List (Line × ℚ)) (n : Line) (v : ℚ), dictLookup (dictInsert m n v) n = some v) ∧
    (∀ (m : List (Line × ℚ)) (n n' : Line) (v : ℚ), n' ≠ n →
      dictLookup (dictInsert m n v) n' = dictLookup m n') ∧
    (∀ (ls : List Line) (r : SimConfig), (∀ x ∈ ls, pyStrip x ≠ physHdr) →
      preload ls = Except.ok r → r.physical_constants = []) := by
  refine ⟨?_, ?_, dictLookup_dictInsert_self, ?_, ?_⟩
  · intro s cfg n v h
    unfold processPhys
    rw [h]
  · intro s cfg h
    unfold processPhys
    rw [h]
  · intro m n n' v h
    exact dictLookup_dictInsert_ne m n n' v h
  · intro ls r hno hrun
    exact preloadLoop_constants_frame ls none 0 {} (by simp) hno r hrun

theorem claim_C7_witness :
    (processPhys (chars "mass : 2.0") {}).physical_constants =
      dictInsert ({} : SimConfig).physical_constants (chars "mass") 2 ∧
    processPhys (chars "???") {} = {} ∧
    dictLookup (dictInsert [] (chars "a") 1) (chars "a") = some 1 ∧
    dictLookup (dictInsert [(chars "b", 7)] (chars "a") 1) (chars "b") =
      dictLookup [(chars "b", 7)] (chars "b") ∧
    ({} : SimConfig).physical_constants = [] :=
  ⟨claim_C7_amended.1 (chars "mass : 2.0") {} (chars "mass") 2 (by decide),
   claim_C7_amended.2.1 (chars "???") {} (by decide),
   claim_C7_amended.2.2.1 [] (chars "a") 1,
   claim_C7_amended.2.2.2.1 [(chars "b", 7)] (chars "a") (chars "b") 1 (by decide),
   claim_C7_amended.2.2.2.2 [chars "x"] {} (by decide) (by decide)⟩

/-- C8: on every successful run, `num_membranes` equals the number of
non-blank, non-comment, non-header lines scanned while the active section is
`[membranes]` whose first three tab-separated fields parse as integers (the
membranes component of the scan tally); each membrane-section row contributes
1 exactly when it is such a row, so every other row leaves the counter
unchanged. -/
theorem claim_C8 :
    (∀ (ls : List Line) (r : SimConfig), preload ls = Except.ok r →
      r.num_membranes = (scanTally ls none).membranes) ∧
    (∀ s : Line, (rowMemTally s).membranes =
      if validMembraneRow s then 1 else 0) := by
  constructor
  · intro ls r h
    obtain ⟨-, -, -, -, e5, -⟩ := preloadLoop_tally ls none 0 {} r h
    simpa using e5
  · intro s
    unfold rowMemTally
    split_ifs <;> rfl

theorem claim_C8_witness :
    ({ xmin := 0, xmax := 10, ymin := 0, ymax := 10, zmin := 0, zmax := 10,
       num_liquid_p := 1, num_elastic_p := 0, num_boundary_p := 1, num_total_p := 2,
       num_membranes := 1, read_position_after_simbox := 7,
       boundsWrites := 1 } : SimConfig).num_membranes =
      (scanTally fileC1 none).membranes :=
  claim_C8.1 fileC1 _ (by decide)

/-- C9 (counterexample): the bounds are not written at most once per pass —
on a file with two well-formed `[simulation box]` blocks the ghost write
counter (incremented exactly when the six bounds fields are assigned) ends
at 2, and the second block's values overwrite the first's. -/
theorem claim_C9_counterexample :
    ¬ (∀ (ls : List Line) (r : SimConfig), preload ls = Except.ok r →
        r.boundsWrites ≤ 1) := fun h => by
  have hc := h fileC9
    { xmin := 1, xmax := 2, ymin := 3, ymax := 4, zmin := 5, zmax := 6,
      read_position_after_simbox := 14, boundsWrites := 2 } (by decide)
  exact absurd hc (by decide)

/-- C9 (amended): the six bounds fields (and the ghost write counter) are
mutated only when a `[simulation box]` header line is processed — a run over
lines containing no such header preserves them all — and on a successful run
the number of bounds assignments equals the number of simulation-box blocks
the scan processed (so several blocks mean several writes, the last one
winning). -/
theorem claim_C9_amended :
    (∀ (ls : List Line) (sec : Option Line) (pos : ℕ) (cfg r : SimConfig),
      (∀ x ∈ ls, pyStrip x ≠ simboxHdr) → preloadLoop ls sec pos cfg = Except.ok r →
      r.xmin = cfg.xmin ∧ r.xmax = cfg.xmax ∧ r.ymin = cfg.ymin ∧ r.ymax = cfg.ymax ∧
      r.zmin = cfg.zmin ∧ r.zmax = cfg.zmax ∧ r.boundsWrites = cfg.boundsWrites) ∧
    (∀ (ls : List Line) (r : SimConfig), preload ls = Except.ok r →
      r.boundsWrites = (scanTally ls none).bwrites) := by
  constructor
  · intro ls sec pos cfg r hno hrun
    have hframe := preloadLoop_bounds_frame ls sec pos cfg hno r hrun
    simp only [boundsPart, Prod.mk.injEq] at hframe
    exact ⟨hframe.1, hframe.2.1, hframe.2.2.1, hframe.2.2.2.1, hframe.2.2.2.2.1,
      hframe.2.2.2.2.2.1, hframe.2.2.2.2.2.2.2⟩
  · intro ls r h
    obtain ⟨-, -, -, -, -, e6⟩ := preloadLoop_tally ls none 0 {} r h
    simpa using e6

theorem claim_C9_witness :
    (({} : SimConfig).xmin = ({} : SimConfig).xmin ∧
     ({} : SimConfig).xmax = ({} : SimConfig).xmax ∧
     ({} : SimConfig).ymin = ({} : SimConfig).ymin ∧
     ({} : SimConfig).ymax = ({} : SimConfig).ymax ∧
     ({} : SimConfig).zmin = ({} : SimConfig).zmin ∧
     ({} : SimConfig).zmax = ({} : SimConfig).zmax ∧
     ({} : SimConfig).boundsWrites = ({} : SimConfig).boundsWrites) ∧
    ({ xmin := 1, xmax := 2, ymin := 3, ymax := 4, zmin := 5, zmax := 6,
       read_position_after_simbox := 14,
       boundsWrites := 2 } : SimConfig).boundsWrites =
      (scanTally fileC9 none).bwrites :=
  ⟨claim_C9_amended.1 [chars "[end]"] none 0 {} {} (by decide) (by decide),
   claim_C9_amended.2 fileC9 _ (by decide)⟩
